import Mathlib

/-!
Shallow embedding of the byte-buffer analysis core of
`src/analyze_dicom.py` (function `analyze_dicom`, restricted to the pure
computation over the PixelData byte buffer `raw`):

* the MP4-signature / brand check (lines 62-69),
* the encapsulation fragment scan (lines 75-93),
* the ftyp/mdat box scan of the video-stream check (lines 103-114),
* the avcC profile/level decode of the video-stream check (lines 117-126),
* the surrounding try/except of the video-stream check (lines 99-128).

Bytes are modelled as `List Nat` (Python `bytes` elements are naturals
0-255; no definition below depends on the 0-255 bound).  Python slicing
`raw[a:b]` clamps at the end of the buffer and never faults; it is modelled
by `slice`.  Python indexing `raw[i]` raises `IndexError` when out of
range; the only such reads (`raw[avc_pos + 5]`, `raw[avc_pos + 7]`) are
modelled by `Except`, with `Except.error` standing for the raised
exception, which the enclosing handler of line 127 catches.
-/

namespace DICOMizer

/-- A Python `bytes` value: list of byte values. -/
abbrev ByteBuf := List Nat

/-- Python slice `buf[pos : pos + n]`: clamped, never faults. -/
def slice (buf : ByteBuf) (pos n : Nat) : ByteBuf :=
  (buf.drop pos).take n

/-- Python `int.from_bytes(l, "little")` (also correct for short or empty
slices, which Python accepts). -/
def fromLE : ByteBuf → Nat
  | [] => 0
  | b :: bs => b + 256 * fromLE bs

/-- Python `int.from_bytes(l, "big")`. -/
def fromBE (l : ByteBuf) : Nat :=
  l.foldl (fun a b => a * 256 + b) 0

/-- DICOM item tag bytes `FE FF 00 E0` (line 78). -/
def itemTag : ByteBuf := [0xfe, 0xff, 0x00, 0xe0]

/-- DICOM sequence-delimiter tag bytes `FE FF DD E0` (line 89). -/
def delimTag : ByteBuf := [0xfe, 0xff, 0xdd, 0xe0]

/-- The literal `b"ftyp"`. -/
def ftypTag : ByteBuf := [0x66, 0x74, 0x79, 0x70]

/-- The literal `b"mdat"`. -/
def mdatTag : ByteBuf := [0x6d, 0x64, 0x61, 0x74]

/-- The literal `b"avcC"`. -/
def avcCTag : ByteBuf := [0x61, 0x76, 0x63, 0x43]

/-- Python `bytes.find(tag)`: index of the first occurrence of `tag` as a
contiguous subsequence, `none` when absent (Python returns -1). -/
def bfind (buf tag : ByteBuf) : Option Nat :=
  (List.range (buf.length + 1)).find? (fun p => slice buf p tag.length == tag)

/-! ### MP4 signature / brand check (lines 62-69)

`if b"ftyp" in raw[:100]: ftyp_pos = raw.find(b"ftyp");
 brand = raw[ftyp_pos + 4 : ftyp_pos + 8]`. -/

structure Mp4Sig where
  ftyp_pos : Nat
  brand : ByteBuf
deriving DecidableEq

def mp4_sig_check (buf : ByteBuf) : Option Mp4Sig :=
  match bfind (buf.take 100) ftypTag with
  | none => none
  | some _ =>
      match bfind buf ftypTag with
      | none => none
      | some p => some ⟨p, slice buf (p + 4) 4⟩

/-! ### Fragment Reader: the encapsulation-structure loop (lines 75-93)

```
pos = 0
while pos < min(len(raw), 200):
    if raw[pos:pos+4] == bytes([0xfe, 0xff, 0x00, 0xe0]):
        length = int.from_bytes(raw[pos+4:pos+8], "little")
        ... record item ...
        if length == 0: pos += 8
        elif length == 0xffffffff: pos += 8
        else: pos += 8 + length; break
    elif raw[pos:pos+4] == bytes([0xfe, 0xff, 0xdd, 0xe0]):
        ... record delimiter ...; break
    else: pos += 1
```

The loop is a fueled recursion; every step advances `pos` by at least 1,
so fuel `min(len, 200) + 1` always suffices (proved below).  The recorded
item keeps the offset and length the code prints, together with the
payload range `[offset + 8, offset + 8 + length)` implied by the code's
`pos += 8 + length` advance. -/

structure FragmentItem where
  offset : Nat
  length : Nat
  payloadStart : Nat
  payloadEnd : Nat
deriving DecidableEq

structure FragResult where
  items : List FragmentItem
  delim : Option Nat
deriving DecidableEq

/-- The constant `min(len(raw), 200)` of lines 77 and 104. -/
def scanLimit (buf : ByteBuf) : Nat := min buf.length 200

def fragLoop (buf : ByteBuf) (limit : Nat) :
    Nat → Nat → List FragmentItem → Option FragResult
  | 0, _, _ => none
  | fuel + 1, pos, acc =>
    if pos < limit then
      if slice buf pos 4 = itemTag then
        if fromLE (slice buf (pos + 4) 4) = 0 then
          fragLoop buf limit fuel (pos + 8)
            (acc ++ [⟨pos, fromLE (slice buf (pos + 4) 4), pos + 8,
                      pos + 8 + fromLE (slice buf (pos + 4) 4)⟩])
        else if fromLE (slice buf (pos + 4) 4) = 4294967295 then
          fragLoop buf limit fuel (pos + 8)
            (acc ++ [⟨pos, fromLE (slice buf (pos + 4) 4), pos + 8,
                      pos + 8 + fromLE (slice buf (pos + 4) 4)⟩])
        else
          some ⟨acc ++ [⟨pos, fromLE (slice buf (pos + 4) 4), pos + 8,
                         pos + 8 + fromLE (slice buf (pos + 4) 4)⟩], none⟩
      else if slice buf pos 4 = delimTag then
        some ⟨acc, some pos⟩
      else
        fragLoop buf limit fuel (pos + 1) acc
    else
      some ⟨acc, none⟩

/-- The Fragment Reader (spec 4.1), embedded from lines 75-93 with the
code's fixed limit `min(len, 200)`. -/
def read_fragments (buf : ByteBuf) : FragResult :=
  (fragLoop buf (scanLimit buf) (scanLimit buf + 1) 0 []).getD ⟨[], none⟩

/-! ### Box Scanner: the ftyp/mdat search (lines 103-114)

```
video_start = None
for i in range(min(len(raw), 200)):
    if raw[i:i+4] == b"ftyp" or raw[i:i+4] == b"mdat":
        video_start = i - 4
        break
if video_start and video_start > 0:
    size = int.from_bytes(raw[video_start:video_start+4], "big")
    atom_type = raw[video_start+4:video_start+8]
```

`video_start and video_start > 0` is true exactly when `i - 4 >= 1`,
i.e. `i >= 5`: a tag first found at `i <= 4` (including the header-at-0
case `i = 4`) yields no box. -/

def sigAt (buf : ByteBuf) (i : Nat) : Bool :=
  slice buf i 4 == ftypTag || slice buf i 4 == mdatTag

def find_sig_index (buf : ByteBuf) : Option Nat :=
  (List.range (scanLimit buf)).find? (sigAt buf)

structure MP4Box where
  offset : Nat
  declared_size : Nat
  box_type : ByteBuf
deriving DecidableEq

/-- The Box Scanner (spec 4.2), embedded from lines 103-114. -/
def find_signature_box (buf : ByteBuf) : Option MP4Box :=
  match find_sig_index buf with
  | none => none
  | some i =>
      if 5 ≤ i then
        some ⟨i - 4, fromBE (slice buf (i - 4) 4), slice buf i 4⟩
      else
        none

/-! ### AVC Config Parser: the avcC decode (lines 117-126)

```
avc_pos = raw.find(b"avcC")
if avc_pos > 0:
    profile_idc = raw[avc_pos + 5]
    level_idc = raw[avc_pos + 7]
    profile_names = {66: "Baseline", 77: "Main", 100: "High"}
    ... Profile: profile_names.get(profile_idc, "Unknown") (profile_idc)
    ... Level: level_idc / 10 formatted with one decimal
else:
    ... "Could not find avcC box" ...
```

The two index reads raise `IndexError` exactly when `avc_pos + 7` is not
a valid index (`raw[avc_pos + 5]` alone raises only when
`avc_pos + 5 >= len`, but then `avc_pos + 7 >= len` as well); this is
modelled as `Except.error ()`.  `.ok none` is the "Could not find avcC
box" outcome, which also covers `avc_pos == 0` because of the strict
`avc_pos > 0` test. -/

structure AvcInfo where
  profile_idc : Nat
  level_idc : Nat
deriving DecidableEq

/-- `profile_names.get(profile_idc, "Unknown")` of lines 122-123. -/
def profileName (p : Nat) : String :=
  if p = 66 then "Baseline"
  else if p = 77 then "Main"
  else if p = 100 then "High"
  else "Unknown"

/-- `f"{level_idc / 10:.1f}"` of line 124: for byte values the one-decimal
rendering of `n / 10` is exactly `(n / 10) "." (n % 10)`. -/
def levelString (n : Nat) : String :=
  toString (n / 10) ++ "." ++ toString (n % 10)

/-- The AVC Config Parser (spec 4.3), embedded from lines 117-126. -/
def find_avc_config (buf : ByteBuf) : Except Unit (Option AvcInfo) :=
  match bfind buf avcCTag with
  | none => Except.ok none
  | some p =>
      if 0 < p then
        if p + 7 < buf.length then
          Except.ok (some ⟨buf.getD (p + 5) 0, buf.getD (p + 7) 0⟩)
        else
          Except.error ()
      else
        Except.ok none

/-! ### The video-stream check with its try/except (lines 99-128)

The avcC decode runs only inside `if video_start and video_start > 0`;
an `IndexError` from the decode is caught by the handler of line 127
("Error checking video stream"), after the box information has already
been emitted. -/

structure VideoCheck where
  box : Option MP4Box
  avc : Option AvcInfo
  streamError : Bool
deriving DecidableEq

def video_stream_check (buf : ByteBuf) : VideoCheck :=
  match find_signature_box buf with
  | none => ⟨none, none, false⟩
  | some b =>
      match find_avc_config buf with
      | Except.ok r => ⟨some b, r, false⟩
      | Except.error _ => ⟨some b, none, true⟩

/-- The whole per-buffer analysis report (spec's `AnalysisReport`). -/
structure AnalysisReport where
  mp4sig : Option Mp4Sig
  fragments : FragResult
  video : VideoCheck
deriving DecidableEq

/-- The Analysis Orchestrator (spec 4.4): the pure byte-buffer part of
`analyze_dicom`. -/
def analyze (buf : ByteBuf) : AnalysisReport :=
  ⟨mp4_sig_check buf, read_fragments buf, video_stream_check buf⟩

/-- Little-endian 4-byte encoding, used to state the fragment round-trip. -/
def le4 (n : Nat) : ByteBuf :=
  [n % 256, n / 256 % 256, n / 65536 % 256, n / 16777216 % 256]

/-! ## Helper lemmas -/

/-- The fragment loop of lines 75-93 advances by at least one byte per
iteration, so fuel exceeding `limit - pos` always suffices. -/
theorem fragLoop_isSome (buf : ByteBuf) (limit : Nat) :
    ∀ fuel pos acc, limit - pos < fuel →
      (fragLoop buf limit fuel pos acc).isSome = true := by
  intro fuel
  induction fuel with
  | zero => intro pos acc h; omega
  | succ n ih =>
      intro pos acc h
      rw [fragLoop]
      by_cases hp : pos < limit
      · rw [if_pos hp]
        by_cases h1 : slice buf pos 4 = itemTag
        · rw [if_pos h1]
          by_cases h2 : fromLE (slice buf (pos + 4) 4) = 0
          · rw [if_pos h2]; exact ih (pos + 8) _ (by omega)
          · rw [if_neg h2]
            by_cases h3 : fromLE (slice buf (pos + 4) 4) = 4294967295
            · rw [if_pos h3]; exact ih (pos + 8) _ (by omega)
            · rw [if_neg h3]; rfl
        · rw [if_neg h1]
          by_cases h4 : slice buf pos 4 = delimTag
          · rw [if_pos h4]; rfl
          · rw [if_neg h4]; exact ih (pos + 1) acc (by omega)
      · rw [if_neg hp]; rfl

/-- The fueled fragment loop with the fuel used by `read_fragments`
always returns a result, and that result is `read_fragments buf`. -/
theorem fragLoop_run (buf : ByteBuf) :
    fragLoop buf (scanLimit buf) (scanLimit buf + 1) 0 [] =
      some (read_fragments buf) := by
  have h := fragLoop_isSome buf (scanLimit buf) (scanLimit buf + 1) 0 [] (by omega)
  cases heq : fragLoop buf (scanLimit buf) (scanLimit buf + 1) 0 [] with
  | none => rw [heq] at h; simp at h
  | some st => rw [read_fragments, heq]; rfl

/-- What is true of every item the loop records: the four bytes at its
offset are the item tag, its length is the little-endian value of the
following (clamped) 4-byte slice, and its payload range is derived from
offset and length. -/
def goodItem (buf : ByteBuf) (it : FragmentItem) : Prop :=
  slice buf it.offset 4 = itemTag ∧
  it.length = fromLE (slice buf (it.offset + 4) 4) ∧
  it.payloadStart = it.offset + 8 ∧
  it.payloadEnd = it.offset + 8 + it.length

theorem fragLoop_good (buf : ByteBuf) (limit : Nat) :
    ∀ fuel pos acc st, fragLoop buf limit fuel pos acc = some st →
      (∀ it ∈ acc, goodItem buf it) → ∀ it ∈ st.items, goodItem buf it := by
  intro fuel
  induction fuel with
  | zero => intro pos acc st h; rw [fragLoop] at h; exact absurd h (by simp)
  | succ n ih =>
      intro pos acc st h hacc
      rw [fragLoop] at h
      by_cases hp : pos < limit
      · rw [if_pos hp] at h
        by_cases h1 : slice buf pos 4 = itemTag
        · rw [if_pos h1] at h
          have hnew : ∀ it ∈ acc ++
              [(⟨pos, fromLE (slice buf (pos + 4) 4), pos + 8,
                 pos + 8 + fromLE (slice buf (pos + 4) 4)⟩ : FragmentItem)],
              goodItem buf it := by
            intro it hit
            rcases List.mem_append.1 hit with hi | hi
            · exact hacc it hi
            · have := List.mem_singleton.1 hi
              subst this
              exact ⟨h1, rfl, rfl, rfl⟩
          by_cases h2 : fromLE (slice buf (pos + 4) 4) = 0
          · rw [if_pos h2] at h; exact ih _ _ _ h hnew
          · rw [if_neg h2] at h
            by_cases h3 : fromLE (slice buf (pos + 4) 4) = 4294967295
            · rw [if_pos h3] at h; exact ih _ _ _ h hnew
            · rw [if_neg h3] at h
              injection h with h
              subst h
              exact hnew
        · rw [if_neg h1] at h
          by_cases h4 : slice buf pos 4 = delimTag
          · rw [if_pos h4] at h
            injection h with h
            subst h
            exact hacc
          · rw [if_neg h4] at h; exact ih _ _ _ h hacc
      · rw [if_neg hp] at h
        injection h with h
        subst h
        exact hacc

/-- A recorded item tag lies fully inside the buffer. -/
theorem goodItem_bound (buf : ByteBuf) (it : FragmentItem)
    (h : goodItem buf it) : it.offset + 4 ≤ buf.length := by
  have hl := congrArg List.length h.1
  simp [slice, itemTag] at hl
  omega

/-- Little-endian 4-byte round trip for values below 2^32. -/
theorem fromLE_le4 (L : Nat) (h : L < 4294967296) : fromLE (le4 L) = L := by
  simp [fromLE, le4]
  omega

/-- `profileName` sends every value other than 66, 77, 100 to "Unknown"
(the `dict.get` default of line 123). -/
def profileUnknownOK : Prop :=
  ∀ p : Nat, p ≠ 66 → p ≠ 77 → p ≠ 100 → profileName p = "Unknown"

/-! ## Concrete inputs used by the counterexamples and witnesses -/

/-- Spec P4 input: big-endian size 24 followed by `ftyp` (tag at index 4). -/
def exC3 : ByteBuf := [0x00, 0x00, 0x00, 0x18, 0x66, 0x74, 0x79, 0x70]

/-- The P4 input shifted one byte: the tag is first at index 5. -/
def exC3w : ByteBuf := [0xaa, 0x00, 0x00, 0x00, 0x18, 0x66, 0x74, 0x79, 0x70]

/-- An item tag with declared length 5 and no payload bytes at all. -/
def exC4 : ByteBuf := [0xfe, 0xff, 0x00, 0xe0, 0x05, 0x00, 0x00, 0x00]

/-- `avcC` at index 1 with in-bounds profile 100 and level 41 bytes, and
no `ftyp`/`mdat` anywhere. -/
def exC2 : ByteBuf := [0xaa, 0x61, 0x76, 0x63, 0x43, 0x00, 100, 0x00, 41]

/-- A found box (`ftyp` at index 5) followed by `avcC` as the last four
bytes: the profile/level reads are out of range. -/
def exC5 : ByteBuf :=
  [0xaa, 0x00, 0x00, 0x00, 0x18, 0x66, 0x74, 0x79, 0x70,
   0x61, 0x76, 0x63, 0x43]

/-- Size field 1 before `ftyp` (at index 5), followed by the 8-byte
big-endian extended size 12345. -/
def exC6 : ByteBuf :=
  [0xaa, 0x00, 0x00, 0x00, 0x01, 0x66, 0x74, 0x79, 0x70,
   0x00, 0x00, 0x00, 0x00, 0x00, 0x00, 0x30, 0x39]

/-- `avcC` at offset 0 with 8 bytes in total: profile byte 100 at index 5
and level byte 41 at index 7 are present and in bounds. -/
def exC7 : ByteBuf := [0x61, 0x76, 0x63, 0x43, 0x00, 100, 0x00, 41]

/-- `avcC` first at offset 1, with profile byte 100 at index 6 and level
byte 41 at index 8. -/
def exC7w : ByteBuf := [0xaa, 0x61, 0x76, 0x63, 0x43, 0x07, 100, 0x09, 41, 0x55]

/-- `avcC` at offset 0 with five more bytes, so all reads would be in
bounds. -/
def exC10 : ByteBuf := [0x61, 0x76, 0x63, 0x43, 0x01, 100, 0x02, 41, 0x63]

/-! ## Claims -/

/-- Claim C1: for every byte buffer, of any length including empty, the
analysis (fragment scan, box scan, and avcC scan together) terminates and
returns a report.  The fueled fragment loop always yields a result with
the fuel `read_fragments` supplies (the loop advances at least one byte
per step), and `analyze` assembles the report from the three components,
each of which is a total function; the only Python-level fault
(`IndexError` on the avcC profile/level reads) is modelled inside
`find_avc_config` as a caught `Except.error`, so no out-of-bounds access
escapes. -/
theorem c1_totality (buf : ByteBuf) :
    (fragLoop buf (scanLimit buf) (scanLimit buf + 1) 0 []).isSome = true ∧
    analyze buf = ⟨mp4_sig_check buf, read_fragments buf, video_stream_check buf⟩ := by
  refine ⟨?_, rfl⟩
  rw [fragLoop_run]
  rfl

/-- Claim C2, counterexample: `exC2` contains an `avcC` record that
`find_avc_config` reports (profile 100, level 41), yet because no
`ftyp`/`mdat` is present the video-stream check never runs the avcC scan
and the report carries no AVC configuration.  This refutes "there exist
no buffers where an avcC record is omitted merely because no ftyp/mdat
box was located". -/
theorem c2_counterexample :
    find_avc_config exC2 = Except.ok (some ⟨100, 41⟩) ∧
    find_sig_index exC2 = none ∧
    (video_stream_check exC2).avc = none := ⟨rfl, rfl, rfl⟩

/-- Claim C2, amended: the AVC Config Parser is not run unconditionally;
it runs only after the Box Scanner has located a box (tag first at index
≥ 5).  Whenever no box is located — the tag absent within the search
limit, or first occurring at index < 5 — the avcC scan of lines 117-126
is skipped entirely: the report carries no AVC configuration and no
stream error, whatever `find_avc_config` would have returned. -/
theorem c2_amended (buf : ByteBuf)
    (h : find_sig_index buf = none ∨ ∃ i, find_sig_index buf = some i ∧ i < 5) :
    (video_stream_check buf).avc = none ∧
    (video_stream_check buf).streamError = false ∧
    find_signature_box buf = none := by
  have hbox : find_signature_box buf = none := by
    rcases h with h | ⟨i, hi, hlt⟩
    · simp only [find_signature_box, h]
    · simp only [find_signature_box, hi]
      rw [if_neg (by omega)]
  refine ⟨?_, ?_, hbox⟩ <;> simp [video_stream_check, hbox]

/-- Claim C2, witness for the amended theorem at the concrete buffer
`exC2`. -/
theorem c2_amended_witness :
    (video_stream_check exC2).avc = none ∧
    (video_stream_check exC2).streamError = false ∧
    find_signature_box exC2 = none :=
  c2_amended exC2 (Or.inl (by decide))

/-- Claim C3, counterexample: on the spec's own P4 bytes
`00 00 00 18 66 74 79 70` the tag is first found at index 4, but
`if video_start and video_start > 0` (line 110) is false for
`video_start = 0`, so no box is returned at all — not
`Box{offset 0, declared_size 24, box_type "ftyp"}`. -/
theorem c3_counterexample :
    find_sig_index exC3 = some 4 ∧ find_signature_box exC3 = none :=
  ⟨rfl, rfl⟩

/-- Claim C3, amended: when the `ftyp`/`mdat` tag first occurs at index
`i` within the search limit, the Box Scanner returns the box with offset
`i - 4` and the big-endian u32 of `buf[i-4..i]` as declared size only for
`i ≥ 5`; for `i ≤ 4` (including the header-at-offset-0 case `i = 4`) it
returns no box. -/
theorem c3_amended (buf : ByteBuf) (i : Nat)
    (h : find_sig_index buf = some i) :
    find_signature_box buf =
      if 5 ≤ i then
        some ⟨i - 4, fromBE (slice buf (i - 4) 4), slice buf i 4⟩
      else none := by
  simp only [find_signature_box, h]

/-- Claim C3, witness for the amended theorem: the P4 bytes shifted by
one pad byte (tag first at index 5) do yield offset 1, size 24, `ftyp`. -/
theorem c3_amended_witness :
    find_signature_box exC3w = some ⟨1, 24, ftypTag⟩ :=
  (c3_amended exC3w 5 (by decide)).trans (by decide)

/-- Claim C4, counterexample: buffer `FE FF 00 E0 05 00 00 00` (8 bytes).
The reader records the fragment at offset 0 with concrete length 5, yet
`0 + 8 + 5 = 13 > 8`: the declared payload extends past the end of the
buffer, refuting the claimed invariant. -/
theorem c4_counterexample :
    (read_fragments exC4).items = [⟨0, 5, 8, 13⟩] ∧
    (⟨0, 5, 8, 13⟩ : FragmentItem).length ≠ 4294967295 ∧
    ¬ ((⟨0, 5, 8, 13⟩ : FragmentItem).offset + 8 +
        (⟨0, 5, 8, 13⟩ : FragmentItem).length ≤ exC4.length) := by
  decide

/-- Claim C4, amended: the reader guarantees only that the four tag bytes
of every recorded item lie inside the buffer (`offset + 4 ≤ len`) and
that the recorded length is the little-endian value of the clamped slice
`buf[offset+4 .. offset+8]`, with the payload range derived from them;
the declared length is never validated against the buffer end, so a
non-sentinel item may have `offset + 8 + length > len`. -/
theorem c4_amended (buf : ByteBuf) (it : FragmentItem)
    (h : it ∈ (read_fragments buf).items) :
    it.offset + 4 ≤ buf.length ∧
    slice buf it.offset 4 = itemTag ∧
    it.length = fromLE (slice buf (it.offset + 4) 4) ∧
    it.payloadStart = it.offset + 8 ∧
    it.payloadEnd = it.offset + 8 + it.length := by
  have hg := fragLoop_good buf (scanLimit buf) (scanLimit buf + 1) 0 []
    (read_fragments buf) (fragLoop_run buf) (by simp) it h
  exact ⟨goodItem_bound buf it hg, hg.1, hg.2.1, hg.2.2.1, hg.2.2.2⟩

/-- Claim C4, witness for the amended theorem at `exC4`. -/
theorem c4_amended_witness :
    (0 : Nat) + 4 ≤ exC4.length ∧
    slice exC4 0 4 = itemTag ∧
    (5 : Nat) = fromLE (slice exC4 (0 + 4) 4) ∧
    (8 : Nat) = 0 + 8 ∧
    (13 : Nat) = 0 + 8 + 5 :=
  c4_amended exC4 ⟨0, 5, 8, 13⟩ (by decide)

/-- Claim C5, counterexample: in `exC5` the `avcC` tag is found at
position 9 of a 13-byte buffer (`9 + 7 ≥ 13`), and the parser does not
return `None`: the read `raw[avc_pos + 5]` is out of range and raises
(`Except.error`), which the orchestrator's handler turns into the
stream-error diagnostic. -/
theorem c5_counterexample :
    find_avc_config exC5 = Except.error () ∧
    (video_stream_check exC5).streamError = true ∧
    (video_stream_check exC5).avc = none := ⟨rfl, rfl, rfl⟩

/-- Claim C5, amended: for every buffer in which the `avcC` tag is first
found at `p ≥ 1` with `p + 7 ≥ len` (a truncated record), the parser does
not return `None` gracefully — it attempts an out-of-range read, raising
an `IndexError` modelled as `Except.error ()`; the exception is caught by
the orchestrator, so the report carries no AVC configuration, and the
stream-error diagnostic is set exactly when a box had been found (the
only case in which the avcC scan runs at all). -/
theorem c5_amended (buf : ByteBuf) (p : Nat)
    (h1 : bfind buf avcCTag = some p) (h2 : 1 ≤ p)
    (h3 : buf.length ≤ p + 7) :
    find_avc_config buf = Except.error () ∧
    (video_stream_check buf).avc = none ∧
    (video_stream_check buf).streamError = (find_signature_box buf).isSome := by
  have hfac : find_avc_config buf = Except.error () := by
    simp only [find_avc_config, h1]
    rw [if_pos (by omega), if_neg (by omega)]
  refine ⟨hfac, ?_, ?_⟩ <;>
    cases hbox : find_signature_box buf <;>
    simp [video_stream_check, hbox, hfac]

/-- Claim C5, witness for the amended theorem at `exC5`. -/
theorem c5_amended_witness :
    find_avc_config exC5 = Except.error () ∧
    (video_stream_check exC5).avc = none ∧
    (video_stream_check exC5).streamError = (find_signature_box exC5).isSome :=
  c5_amended exC5 9 (by decide) (by decide) (by decide)

/-- Claim C6, counterexample: in `exC6` the size field before `ftyp` is
`00 00 00 01` and the 64-bit big-endian value at `buf[i+4..i+12]` is
12345, yet the scanner reports `declared_size = 1`: lines 110-114 contain
no extended-size handling at all. -/
theorem c6_counterexample :
    find_signature_box exC6 = some ⟨1, 1, ftypTag⟩ ∧
    fromBE (slice exC6 9 8) = 12345 ∧ (1 : Nat) ≠ 12345 := by
  decide

/-- Claim C6, amended: when the u32 size field preceding the tag (first
found at `i ≥ 5` within the limit) equals 1, the Box Scanner simply
reports `declared_size = 1` — the raw u32 — and never reads the 64-bit
extended size at `buf[i+4..i+12]`; no 16-byte-header form exists in the
code. -/
theorem c6_amended (buf : ByteBuf) (i : Nat)
    (h1 : find_sig_index buf = some i) (h2 : 5 ≤ i)
    (h3 : fromBE (slice buf (i - 4) 4) = 1) :
    find_signature_box buf = some ⟨i - 4, 1, slice buf i 4⟩ := by
  simp only [find_signature_box, h1]
  rw [if_pos h2, h3]

/-- Claim C6, witness for the amended theorem at `exC6`. -/
theorem c6_amended_witness :
    find_signature_box exC6 = some ⟨1, 1, slice exC6 5 4⟩ :=
  c6_amended exC6 5 (by decide) (by decide) (by decide)

/-- Claim C7, counterexample: `exC7` contains `avcC` at offset 0 with a
full 8 bytes remaining, `buf[5] = 100` and `buf[7] = 41`, yet the parser
decodes nothing: `if avc_pos > 0` (line 118) is false at position 0, so
the claimed "for every buffer containing the avcC tag at an offset k"
fails at `k = 0`. -/
theorem c7_counterexample :
    find_avc_config exC7 = Except.ok none ∧
    exC7.getD 5 0 = 100 ∧ exC7.getD 7 0 = 41 ∧ exC7.length = 0 + 8 :=
  ⟨rfl, rfl, rfl, rfl⟩

/-- Claim C7, amended: for every buffer in which `avcC` is first found at
an offset `k ≥ 1` with at least 8 bytes remaining, the parser reads
`profile_idc` from `buf[k+5]` and `level_idc` from `buf[k+7]`; the
display name maps 66 to "Baseline", 77 to "Main", 100 to "High" and every
other value to "Unknown" while the raw number is kept in the record, and
the level is rendered as `level_idc` divided by 10 with one decimal
(41 gives "4.1").  At offset 0 nothing is decoded. -/
theorem c7_amended (buf : ByteBuf) (k : Nat)
    (h1 : bfind buf avcCTag = some k) (h2 : 1 ≤ k)
    (h3 : k + 8 ≤ buf.length) :
    find_avc_config buf =
      Except.ok (some ⟨buf.getD (k + 5) 0, buf.getD (k + 7) 0⟩) ∧
    profileName 66 = "Baseline" ∧ profileName 77 = "Main" ∧
    profileName 100 = "High" ∧ profileUnknownOK ∧
    levelString 41 = "4.1" := by
  refine ⟨?_, rfl, rfl, rfl, ?_, rfl⟩
  · simp only [find_avc_config, h1]
    rw [if_pos (by omega), if_pos (by omega)]
  · intro p hp1 hp2 hp3
    simp [profileName, hp1, hp2, hp3]

/-- Claim C7, witness for the amended theorem at `exC7w` (profile byte
100, level byte 41 at offsets 6 and 8 for the tag at offset 1). -/
theorem c7_amended_witness :
    find_avc_config exC7w = Except.ok (some ⟨100, 41⟩) ∧
    profileName 66 = "Baseline" ∧ profileName 77 = "Main" ∧
    profileName 100 = "High" ∧ profileUnknownOK ∧
    levelString 41 = "4.1" :=
  c7_amended exC7w 1 (by decide) (by decide) (by decide)

/-- Claim C8: a buffer beginning with a well-formed item
`[FE FF 00 E0][L little-endian][L payload bytes]` (L neither 0 nor the
sentinel) makes the Fragment Reader record exactly that one item, with
length L and payload range `[8, 8 + L)` covering exactly the payload
bytes, and stop scanning — whatever follows the payload (`rest`), even
further item tags within the scan limit, is never examined. -/
theorem c8_roundtrip (L : Nat) (payload rest : ByteBuf)
    (hL0 : L ≠ 0) (hLs : L ≠ 4294967295) (hLb : L < 4294967296)
    (hp : payload.length = L) :
    read_fragments (itemTag ++ (le4 L ++ (payload ++ rest))) =
      ⟨[⟨0, L, 8, 8 + L⟩], none⟩ ∧
    slice (itemTag ++ (le4 L ++ (payload ++ rest))) 8 L = payload := by
  have hlen : (itemTag ++ (le4 L ++ (payload ++ rest))).length =
      8 + (L + rest.length) := by
    simp [itemTag, le4, hp]
    omega
  have hlim : 0 < scanLimit (itemTag ++ (le4 L ++ (payload ++ rest))) := by
    simp only [scanLimit, hlen]
    omega
  have h0 : slice (itemTag ++ (le4 L ++ (payload ++ rest))) 0 4 = itemTag := rfl
  have h4 : slice (itemTag ++ (le4 L ++ (payload ++ rest))) (0 + 4) 4 = le4 L := rfl
  have e1 : fromLE (slice (itemTag ++ (le4 L ++ (payload ++ rest))) (0 + 4) 4) = L := by
    rw [h4, fromLE_le4 L hLb]
  constructor
  · rw [read_fragments, fragLoop, if_pos hlim, if_pos h0, e1,
        if_neg hL0, if_neg hLs]
    simp
  · have hd : (itemTag ++ (le4 L ++ (payload ++ rest))).drop 8 =
        payload ++ rest := rfl
    rw [slice, hd, ← hp, List.take_left]

/-- Claim C8, witness: the spec's P2 buffer
`[FE FF 00 E0][len 4 LE][4 payload bytes]`. -/
theorem c8_witness :
    read_fragments (itemTag ++ (le4 4 ++ ([0xde, 0xad, 0xbe, 0xef] ++ []))) =
      ⟨[⟨0, 4, 8, 8 + 4⟩], none⟩ ∧
    slice (itemTag ++ (le4 4 ++ ([0xde, 0xad, 0xbe, 0xef] ++ []))) 8 4 =
      [0xde, 0xad, 0xbe, 0xef] :=
  c8_roundtrip 4 [0xde, 0xad, 0xbe, 0xef] []
    (by decide) (by decide) (by decide) (by decide)

/-- Claim C9: every buffer beginning with the sequence-delimiter bytes
`FE FF DD E0` yields zero fragments and the delimiter-seen indicator at
position 0; the loop breaks there (line 91), so the result does not
depend on any byte past the delimiter — the theorem holds for all
continuations of those four bytes. -/
theorem c9_delimiter (buf : ByteBuf) (h : slice buf 0 4 = delimTag) :
    read_fragments buf = ⟨[], some 0⟩ := by
  have hlen : 4 ≤ buf.length := by
    have hl := congrArg List.length h
    simp [slice, delimTag] at hl
    omega
  have hlim : 0 < scanLimit buf := by
    simp only [scanLimit]
    omega
  have hne : slice buf 0 4 ≠ itemTag := by
    rw [h]; decide
  rw [read_fragments, fragLoop, if_pos hlim, if_neg hne, if_pos h]
  rfl

/-- Claim C9, witness: the delimiter followed by two junk bytes. -/
theorem c9_witness :
    read_fragments [0xfe, 0xff, 0xdd, 0xe0, 0x01, 0x02] = ⟨[], some 0⟩ :=
  c9_delimiter [0xfe, 0xff, 0xdd, 0xe0, 0x01, 0x02] (by decide)

/-- Claim C10: when the `avcC` tag is first found at offset 0 (in
particular when it occurs only there), `raw.find` returns 0 and the
strict test `if avc_pos > 0` (line 118) fails, so the parser reports no
AVC configuration even when the profile and level bytes are fully in
bounds. -/
theorem c10_avc_at_zero (buf : ByteBuf) (h : bfind buf avcCTag = some 0) :
    find_avc_config buf = Except.ok none := by
  simp [find_avc_config, h]

/-- Claim C10, witness at `exC10` (9 bytes, all reads would be in
bounds). -/
theorem c10_witness : find_avc_config exC10 = Except.ok none :=
  c10_avc_at_zero exC10 (by decide)

end DICOMizer
